import Mathlib

/-!
Shallow embedding of the core of the `mapper` key-value store
(src/record.rs, src/wrapped_record.rs, src/storage.rs, src/backup_handler.rs).

Time is modelled in nanoseconds: a Rust `Duration` is a `Nat` of nanoseconds
and an `Instant` is a `Nat` of nanoseconds since an arbitrary origin of the
monotonic clock.  `Instant::elapsed` saturates at zero, which truncated `Nat`
subtraction models exactly.

The store's concurrency is embedded as explicit state passing: a `SysState`
carries the shard array, the states of all one-shot expirer channels created
so far (indexed by allocation order), and the list of spawned expirer tasks.
Acquiring and releasing a shard lock has no effect beyond the sequencing the
state-passing style already imposes, so it is not represented separately.

The 64-bit digest produced by `DefaultHasher::finish` is abstracted as an
explicit function argument `hashFn : String → Nat`; `Storage::hash_key`
reduces it modulo the shard-array length exactly as the source does.
-/

namespace Mapper

/-- Nanoseconds per second; `Duration::as_secs` is division by this constant
and `Duration::from_secs` is multiplication by it. -/
def NS_PER_SEC : Nat := 1000000000

/-- The length of the shard array: `Storage(pub(crate) Arc<[CachePadded<RwLock<Shard>>; 4]>)`. -/
def SHARD_LEN : Nat := 4

/-- The value of `usize::MAX` on a 64-bit target, used by
`BackupHandler::recover` as the `unwrap_or` default for an unparsable stem. -/
def USIZE_MAX : Nat := 18446744073709551615

/-- From src/errors.rs: `pub enum TransactionError`. -/
inductive TransactionError where
  | ShardNotFound
  | RecordNotFound
  | TTLNotFound
deriving DecidableEq, Repr

/-- From src/record.rs: `pub struct TTLPolicy { ttl: Duration, last_policy_update: Instant }`. -/
structure TTLPolicy where
  ttl : Nat
  last_policy_update : Nat
deriving DecidableEq, Repr

/-- From src/record.rs: `TTLPolicy::new(ttl)` captures `Instant::now()`,
passed here explicitly as `now`. -/
def TTLPolicy.new (ttl : Nat) (now : Nat) : TTLPolicy :=
  { ttl := ttl, last_policy_update := now }

/-- From src/record.rs: `fn is_expired(&self) -> bool { self.last_policy_update.elapsed() > self.ttl }`.
Note the strict comparison in the source. -/
def TTLPolicy.is_expired (p : TTLPolicy) (now : Nat) : Bool :=
  now - p.last_policy_update > p.ttl

/-- From src/record.rs: `fn expire_in(&self) -> Duration`: returns
`ttl - elapsed` when not expired, `Duration::ZERO` otherwise. -/
def TTLPolicy.expire_in (p : TTLPolicy) (now : Nat) : Nat :=
  if ¬ p.is_expired now then p.ttl - (now - p.last_policy_update) else 0

/-- From src/record.rs: `pub struct Record { data: Vec<u8>, ttl_policy: Option<TTLPolicy> }`. -/
structure Record where
  data : List Nat
  ttl_policy : Option TTLPolicy
deriving DecidableEq, Repr

/-- From src/record.rs: `Record::new(data, ttl)`. -/
def Record.new (data : List Nat) (ttl : Option Nat) (now : Nat) : Record :=
  { data := data
    ttl_policy :=
      match ttl with
      | some t => some (TTLPolicy.new t now)
      | none => none }

/-- From src/record.rs: `Record::update_ttl_policy` installs a fresh policy. -/
def Record.update_ttl_policy (r : Record) (ttl : Nat) (now : Nat) : Record :=
  { r with ttl_policy := some (TTLPolicy.new ttl now) }

/-- From src/record.rs: `Record::remove_ttl_policy`. -/
def Record.remove_ttl_policy (r : Record) : Record :=
  { r with ttl_policy := none }

/-- From src/record.rs: `struct SerializableTTLPolicy { ttl_secs: u64, last_policy_update: u64 }`;
the second field stores the elapsed-since-install delta in whole seconds. -/
structure SerializableTTLPolicy where
  ttl_secs : Nat
  last_policy_update : Nat
deriving DecidableEq, Repr

/-- From src/record.rs: `impl From<TTLPolicy> for SerializableTTLPolicy`:
`ttl_secs = ttl.as_secs()` and `last_policy_update = installed_at.elapsed().as_secs()`,
both truncating to whole seconds; `Instant::now()` is passed explicitly as `now`. -/
def serializeTTLPolicy (p : TTLPolicy) (now : Nat) : SerializableTTLPolicy :=
  { ttl_secs := p.ttl / NS_PER_SEC
    last_policy_update := (now - p.last_policy_update) / NS_PER_SEC }

/-- From src/record.rs: `impl From<SerializableTTLPolicy> for TTLPolicy`:
`ttl = Duration::from_secs(ttl_secs)` and
`last_policy_update = Instant::now() - Duration::from_secs(elapsed_secs)`;
`Instant::now()` at deserialization time is passed explicitly as `now`. -/
def deserializeTTLPolicy (sp : SerializableTTLPolicy) (now : Nat) : TTLPolicy :=
  { ttl := sp.ttl_secs * NS_PER_SEC
    last_policy_update := now - sp.last_policy_update * NS_PER_SEC }

/-- From src/wrapped_record.rs: `pub enum TTLResult { Timout, Closed, Cancelled }`. -/
inductive TTLResult where
  | Timout
  | Closed
  | Cancelled
deriving DecidableEq, Repr

/-- From src/wrapped_record.rs: `pub struct WrappedRecord`.  The
`detatched_task_ch: Option<Sender<TTLResult>>` field is modelled as the
identifier of the one-shot channel (its allocation index in `SysState.chans`). -/
structure WrappedRecord where
  record : Record
  detatched_task_ch : Option Nat
deriving DecidableEq, Repr

/-- The observable state of a bounded(1) `smol::channel`: the queued messages
and whether the send half is still alive (dropping every `Sender` closes the
channel, which the receiver observes as `Err`, i.e. `TTLResult::Closed`). -/
structure ChannelState where
  messages : List TTLResult
  senderAlive : Bool
deriving DecidableEq, Repr

/-- A detached `ttl_check` task as spawned by `create_ttl_check_channel`:
the shard index, the owned key, the receive end of its channel (by id), and
the ttl duration. -/
structure ExpTask where
  shard_index : Nat
  key : String
  chan : Nat
  ttl : Nat
deriving DecidableEq, Repr

/-- From src/storage.rs: `pub struct Shard(pub(crate) HashMap<String, WrappedRecord>)`.
The hash map is modelled as an association list with unique keys together
with its allocated capacity (`HashMap::capacity`), which
`Storage::db_size` reads and which `HashMap::clear` and `HashMap::remove`
are documented to keep unchanged. -/
structure Shard where
  entries : List (String × WrappedRecord)
  cap : Nat
deriving DecidableEq, Repr

/-- `HashMap::get` on the association list. -/
def lookupEntry (key : String) : List (String × WrappedRecord) → Option WrappedRecord
  | [] => none
  | (k, v) :: rest => if k = key then some v else lookupEntry key rest

/-- Removal of a key from the association list (`HashMap::remove`, value part). -/
def eraseKey (key : String) : List (String × WrappedRecord) → List (String × WrappedRecord)
  | [] => []
  | (k, v) :: rest => if k = key then eraseKey key rest else (k, v) :: eraseKey key rest

/-- `HashMap::insert`: returns the previous value under the key and the
updated map.  Capacity evolution on insert is allocator-defined inside `std`
(hashbrown) and no claim depends on the capacity after an insert, so the
model leaves `cap` unchanged here; `db_size`/`flush_all` follow the
documented `HashMap` capacity semantics where it matters. -/
def Shard.insertEntry (sh : Shard) (key : String) (wr : WrappedRecord) :
    Option WrappedRecord × Shard :=
  (lookupEntry key sh.entries, ⟨(key, wr) :: eraseKey key sh.entries, sh.cap⟩)

/-- `HashMap::remove`: returns the removed value, keeps capacity. -/
def Shard.removeEntry (sh : Shard) (key : String) : Option WrappedRecord × Shard :=
  (lookupEntry key sh.entries, ⟨eraseKey key sh.entries, sh.cap⟩)

/-- `HashMap::clear`: removes all entries, keeping the allocated capacity
("Keeps the allocated memory for reuse"). -/
def Shard.clear (sh : Shard) : Shard :=
  ⟨[], sh.cap⟩

/-- The whole-system state: the `Storage` shard array plus the ambient
runtime state the detached expirers live in (channel states indexed by
allocation order, and the spawned `ttl_check` tasks). -/
structure SysState where
  shards : List Shard
  chans : List ChannelState
  tasks : List ExpTask
deriving DecidableEq, Repr

/-- `Storage::default()`: four shards, each an empty `HashMap` (capacity 0),
in a fresh runtime with no channels and no tasks. -/
def initState : SysState :=
  { shards := List.replicate SHARD_LEN ⟨[], 0⟩, chans := [], tasks := [] }

/-- Marks the sender half of channel `i` dropped (out-of-range ids, which
never occur, are a no-op). -/
def setSenderDead : List ChannelState → Nat → List ChannelState
  | [], _ => []
  | c :: rest, 0 => { c with senderAlive := false } :: rest
  | c :: rest, n + 1 => c :: setSenderDead rest n

/-- Effect of dropping the (only) `Sender` of channel `i`: the channel closes. -/
def closeChan (s : SysState) (i : Nat) : SysState :=
  { s with chans := setSenderDead s.chans i }

/-- From src/wrapped_record.rs: `create_ttl_check_channel` allocates a
bounded(1) channel and spawns a detached `ttl_check` task, returning the
send half (its id). -/
def create_ttl_check_channel (s : SysState) (shard_index : Nat) (key : String) (ttl : Nat) :
    Nat × SysState :=
  let cid := s.chans.length
  (cid,
    { s with
      chans := s.chans ++ [⟨[], true⟩]
      tasks := s.tasks ++ [⟨shard_index, key, cid, ttl⟩] })

/-- From src/wrapped_record.rs: `WrappedRecord::new`: iff the record carries a
ttl policy, a channel is created and a `ttl_check` task spawned, and the send
half is stored in `detatched_task_ch`. -/
def WrappedRecord.new (s : SysState) (shard_index : Nat) (key : String) (record : Record) :
    WrappedRecord × SysState :=
  match record.ttl_policy with
  | some ttl_policy =>
      let c := create_ttl_check_channel s shard_index key ttl_policy.ttl
      (⟨record, some c.1⟩, c.2)
  | none => (⟨record, none⟩, s)

/-- From src/storage.rs: `Storage::hash_key`: the hasher digest modulo the
shard-array length.  The `DefaultHasher` digest is abstracted as `hashFn`. -/
def hash_key (hashFn : String → Nat) (key : String) : Nat :=
  hashFn key % SHARD_LEN

/-- From src/storage.rs: `Storage::get_record`: under the shard's read lock,
clone the record if the key is present.  The source performs no expiration
check here — the function does not consult the clock at all, which is why
this embedding needs no `now` argument. -/
def get_record (hashFn : String → Nat) (s : SysState) (key : String) :
    Except TransactionError Record :=
  match s.shards.get? (hash_key hashFn key) with
  | some shard =>
      match lookupEntry key shard.entries with
      | some data => Except.ok data.record
      | none => Except.error TransactionError.RecordNotFound
  | none => Except.error TransactionError.ShardNotFound

/-- From src/storage.rs: `Storage::set_record`.  Under the shard's write
lock, insert a fresh `WrappedRecord` (constructed before the insert, as the
argument of `HashMap::insert`); if a previous record existed and held a
sender, the source executes `let _ = timer.send(TTLResult::Cancelled);` —
`send` returns a future which is dropped without being polled, so no message
is ever enqueued on the channel; dropping `prev` afterwards drops the old
`Sender`, which closes the channel. -/
def set_record (hashFn : String → Nat) (s : SysState) (key : String) (client_record : Record) :
    Except TransactionError Unit × SysState :=
  let shard_index := hash_key hashFn key
  match s.shards.get? shard_index with
  | some shard =>
      let wrs := WrappedRecord.new s shard_index key client_record
      let ins := shard.insertEntry key wrs.1
      let s2 := { wrs.2 with shards := wrs.2.shards.set shard_index ins.2 }
      match ins.1 with
      | some prev =>
          match prev.detatched_task_ch with
          | some timer => (Except.ok (), closeChan s2 timer)
          | none => (Except.ok (), s2)
      | none => (Except.ok (), s2)
  | none => (Except.error TransactionError.ShardNotFound, s)

/-- From src/storage.rs: `Storage::remove_record`.  The entry is removed
under the (temporary) write guard; as in `set_record`, the
`let _ = timer.send(TTLResult::Cancelled);` statement drops the unpolled
send future, so the only channel effect is the closure caused by dropping
the old `Sender` with `prev`. -/
def remove_record (hashFn : String → Nat) (s : SysState) (key : String) :
    Except TransactionError Unit × SysState :=
  match s.shards.get? (hash_key hashFn key) with
  | some shard =>
      let rm := shard.removeEntry key
      let s2 := { s with shards := s.shards.set (hash_key hashFn key) rm.2 }
      match rm.1 with
      | some prev =>
          match prev.detatched_task_ch with
          | some timer => (Except.ok (), closeChan s2 timer)
          | none => (Except.ok (), s2)
      | none => (Except.ok (), s2)
  | none => (Except.error TransactionError.ShardNotFound, s)

/-- From src/wrapped_record.rs: `WrappedRecord::update_ttl_policy`.
In both branches the source's `let _ = detatched_task_ch.send(Cancelled);`
drops the unpolled send future (no message is enqueued; the enclosing
function is not even async, so the future could not be awaited there).
With `Some(new_ttl)` the record's policy is replaced, a fresh channel and
task are created, and overwriting `detatched_task_ch` drops the old sender,
closing its channel.  With `None` the policy is cleared but the old sender
is left in place in `detatched_task_ch` (the field is not cleared). -/
def WrappedRecord.update_ttl_policy (wr : WrappedRecord) (maybe_new_ttl : Option Nat)
    (s : SysState) (shard_index : Nat) (key : String) (now : Nat) :
    WrappedRecord × SysState :=
  match maybe_new_ttl with
  | some new_ttl =>
      let r2 := wr.record.update_ttl_policy new_ttl now
      let c := create_ttl_check_channel s shard_index key new_ttl
      let s2 :=
        match wr.detatched_task_ch with
        | some old => closeChan c.2 old
        | none => c.2
      (⟨r2, some c.1⟩, s2)
  | none =>
      (⟨wr.record.remove_ttl_policy, wr.detatched_task_ch⟩, s)

/-- From src/storage.rs: `Storage::update_ttl`: under the shard's write lock,
mutate the wrapped record in place via `get_mut` (so the map's capacity and
the other entries are untouched), or fail with `RecordNotFound`. -/
def update_ttl (hashFn : String → Nat) (s : SysState) (key : String)
    (new_ttl : Option Nat) (now : Nat) :
    Except TransactionError Unit × SysState :=
  let hash_index := hash_key hashFn key
  match s.shards.get? hash_index with
  | some shard =>
      match lookupEntry key shard.entries with
      | some wrecord =>
          let u := wrecord.update_ttl_policy new_ttl s hash_index key now
          (Except.ok (),
            { u.2 with
              shards := u.2.shards.set hash_index
                ⟨(key, u.1) :: eraseKey key shard.entries, shard.cap⟩ })
      | none => (Except.error TransactionError.RecordNotFound, s)
  | none => (Except.error TransactionError.ShardNotFound, s)

/-- Dropping a list of entries closes the channel of every held sender. -/
def closeEntries (s : SysState) (l : List (String × WrappedRecord)) : SysState :=
  l.foldl
    (fun a kv =>
      match kv.2.detatched_task_ch with
      | some c => closeChan a c
      | none => a)
    s

/-- From src/storage.rs: `Storage::flush_all`: for each shard in turn, under
its write lock, `HashMap::clear` the map.  Clearing drops every
`WrappedRecord`, so every held sender is dropped and its channel closes;
the allocated capacity of each map is kept. -/
def flush_all (s : SysState) : SysState :=
  let s2 := s.shards.foldl (fun acc sh => closeEntries acc sh.entries) s
  { s2 with shards := s2.shards.map Shard.clear }

/-- From src/storage.rs: `Storage::db_size`: sums `HashMap::capacity()` over
the shards (not the entry counts). -/
def db_size (s : SysState) : Nat :=
  s.shards.foldl (fun tot_cap sh => tot_cap + sh.cap) 0

/-- The spec's contract for `db_size` (stated for comparison with the
source's capacity-summing `db_size`): the total number of entries currently
stored across all shards. -/
def db_size_entries (s : SysState) : Nat :=
  s.shards.foldl (fun n sh => n + sh.entries.length) 0

/-- From src/wrapped_record.rs: the tail of the detached `ttl_check` task,
after the race between the timer and the channel receive has produced
`racing_result`.  On `Timout`, under the shard's write lock, the key is
removed iff it is still present and its record still carries a ttl policy
(the removed record's sender is dropped with `_prev`, closing its channel);
on `Cancelled` or `Closed` the task only logs and terminates. -/
def ttl_check (s : SysState) (shard_index : Nat) (key : String) (racing_result : TTLResult) :
    SysState :=
  match s.shards.get? shard_index with
  | some shard =>
      match racing_result with
      | TTLResult.Timout =>
          match lookupEntry key shard.entries with
          | some wrecord =>
              match wrecord.record.ttl_policy with
              | some _ =>
                  let s2 :=
                    { s with
                      shards := s.shards.set shard_index ⟨eraseKey key shard.entries, shard.cap⟩ }
                  match wrecord.detatched_task_ch with
                  | some c => closeChan s2 c
                  | none => s2
              | none => s
          | none => s
      | TTLResult.Cancelled => s
      | TTLResult.Closed => s
  | none => s

/-- Splitting a character list on the underscore, mirroring Rust's
`str::split('_')` (which always yields at least one piece, and yields empty
pieces around consecutive or terminal separators). -/
def splitUnderscore : List Char → List (List Char)
  | [] => [[]]
  | c :: rest =>
      let r := splitUnderscore rest
      if c = '_' then [] :: r
      else
        match r with
        | [] => [[c]]
        | g :: gs => (c :: g) :: gs

/-- Decimal digits to a number, most significant first. -/
def digitsToNat (l : List Char) : Nat :=
  l.foldl (fun n c => n * 10 + (c.toNat - 48)) 0

/-- Rust's `str::parse::<usize>()`: an optional leading plus sign followed by
at least one decimal digit.  (Rust additionally fails on values above
`usize::MAX`; every such value is far above `SHARD_LEN`, so the bounds guard
in `recoverStep` behaves identically either way.) -/
def parseUsize (s : String) : Option Nat :=
  let l :=
    match s.toList with
    | '+' :: rest => rest
    | other => other
  if l.length != 0 && l.all Char.isDigit then some (digitsToNat l) else none

/-- From src/backup_handler.rs, `BackupHandler::recover`: the shard index
extracted from a file stem — the last underscore-separated component,
parsed as a `usize` — before the `unwrap_or(usize::MAX)` default. -/
def parseShardNumOpt (stem : String) : Option Nat :=
  parseUsize (String.mk ((splitUnderscore stem.toList).getLastD []))

/-- From src/backup_handler.rs: `path.file_stem() ... .parse().ok().unwrap_or(usize::MAX)`. -/
def parseShardNum (stem : String) : Nat :=
  match parseShardNumOpt stem with
  | some n => n
  | none => USIZE_MAX

/-- From src/wrapped_record.rs: `#[serde(skip)]` on `detatched_task_ch` makes
every deserialized `WrappedRecord` carry the field's default, `None`, whatever
its record (and its ttl policy) is. -/
def deserializeWrappedRecord (record : Record) : WrappedRecord :=
  ⟨record, none⟩

/-- Deserializing a shard file: every wrapped record comes back with
`detatched_task_ch = None`; the fresh map's capacity is allocator-chosen. -/
def deserializeShard (entries : List (String × Record)) (cap : Nat) : Shard :=
  ⟨entries.map (fun kv => (kv.1, deserializeWrappedRecord kv.2)), cap⟩

/-- From src/backup_handler.rs, `BackupHandler::recover`, per `mdb` file that
deserialized successfully: if the parsed stem index is strictly below the
shard count, replace the live shard at that index under its write lock;
otherwise skip the file.  Recovery runs once at startup, before any client
operation, so the replaced shard is a fresh empty one holding no expirer
senders; the drop of the old shard is therefore channel-neutral and elided.
Recovery allocates no channel and spawns no task. -/
def recoverStep (s : SysState) (stem : String) (deserialized_shard : Shard) : SysState :=
  let shard_num := parseShardNum stem
  if shard_num < s.shards.length then
    { s with shards := s.shards.set shard_num deserialized_shard }
  else s

/-- One client-visible or expirer step, for stating invariants over every
sequence of store operations. -/
inductive Action where
  | set (key : String) (record : Record)
  | remove (key : String)
  | updateTtl (key : String) (ttl : Option Nat) (now : Nat)
  | flushAll
  | fire (shard_index : Nat) (key : String) (result : TTLResult)

/-- Applies one action to the system state (the operation's `Result` value is
not part of the state). -/
def applyAction (hashFn : String → Nat) (s : SysState) : Action → SysState
  | Action.set key record => (set_record hashFn s key record).2
  | Action.remove key => (remove_record hashFn s key).2
  | Action.updateTtl key ttl now => (update_ttl hashFn s key ttl now).2
  | Action.flushAll => flush_all s
  | Action.fire shard_index key result => ttl_check s shard_index key result

/-- Runs a sequence of actions from a starting state. -/
def runActions (hashFn : String → Nat) (s : SysState) (acts : List Action) : SysState :=
  acts.foldl (applyAction hashFn) s

/-- One step of some spawned expirer task: a task in the task list completes
its race with some outcome and runs `ttl_check`. -/
def ExpStep (a b : SysState) : Prop :=
  ∃ t ∈ a.tasks, ∃ res, b = ttl_check a t.shard_index t.key res

/-- The expirer-pairing invariant as amended: every record that carries a
ttl policy has a non-empty expirer handle. -/
def HandleInv (s : SysState) : Prop :=
  ∀ sh ∈ s.shards, ∀ kv ∈ sh.entries,
    kv.2.record.ttl_policy.isSome = true → kv.2.detatched_task_ch.isSome = true

/-! ### Helper lemmas on the model -/

theorem closeChan_shards (s : SysState) (i : Nat) : (closeChan s i).shards = s.shards := rfl

theorem new_shards (s : SysState) (i : Nat) (k : String) (r : Record) :
    ((WrappedRecord.new s i k r).2).shards = s.shards := by
  unfold WrappedRecord.new; split <;> rfl

theorem new_record_eq (s : SysState) (i : Nat) (k : String) (r : Record) :
    ((WrappedRecord.new s i k r).1).record = r := by
  unfold WrappedRecord.new; split <;> rfl

theorem new_handle_of_policy (s : SysState) (i : Nat) (k : String) (r : Record)
    (h : r.ttl_policy.isSome = true) :
    ((WrappedRecord.new s i k r).1).detatched_task_ch.isSome = true := by
  unfold WrappedRecord.new
  cases hr : r.ttl_policy with
  | some p => rfl
  | none => rw [hr] at h; exact absurd h (by simp)

theorem mem_eraseKey {key : String} {l : List (String × WrappedRecord)}
    {p : String × WrappedRecord} (h : p ∈ eraseKey key l) : p ∈ l := by
  induction l with
  | nil => simp [eraseKey] at h
  | cons kv rest ih =>
      unfold eraseKey at h
      by_cases hk : kv.1 = key
      · rw [if_pos hk] at h
        exact List.mem_cons_of_mem _ (ih h)
      · rw [if_neg hk] at h
        rcases List.mem_cons.mp h with h1 | h2
        · exact h1 ▸ List.mem_cons_self _ _
        · exact List.mem_cons_of_mem _ (ih h2)

theorem eraseKey_of_lookup_none {key : String} {l : List (String × WrappedRecord)}
    (h : lookupEntry key l = none) : eraseKey key l = l := by
  induction l with
  | nil => rfl
  | cons kv rest ih =>
      unfold lookupEntry at h
      unfold eraseKey
      by_cases hk : kv.1 = key
      · rw [if_pos hk] at h; exact absurd h (by simp)
      · rw [if_neg hk] at h
        rw [if_neg hk, ih h]

theorem list_set_self {α : Type} {l : List α} {i : Nat} {a : α}
    (h : l.get? i = some a) : l.set i a = l := by
  induction l generalizing i with
  | nil => simp [List.get?] at h
  | cons x rest ih =>
      cases i with
      | zero =>
          have h' : some x = some a := h
          have hx : x = a := by injection h'
          simp [hx]
      | succ n =>
          have h' : rest.get? n = some a := h
          show x :: rest.set n a = x :: rest
          rw [ih h']

theorem sysState_eta (s : SysState) :
    ({ shards := s.shards, chans := s.chans, tasks := s.tasks } : SysState) = s := rfl

theorem set_record_fst (hashFn : String → Nat) (s : SysState) (key : String) (r : Record)
    (shard : Shard) (h : s.shards.get? (hash_key hashFn key) = some shard) :
    (set_record hashFn s key r).1 = Except.ok () := by
  simp only [set_record, h]
  split <;> (try split) <;> rfl

theorem set_record_shards (hashFn : String → Nat) (s : SysState) (key : String) (r : Record)
    (shard : Shard) (h : s.shards.get? (hash_key hashFn key) = some shard) :
    (set_record hashFn s key r).2.shards =
      s.shards.set (hash_key hashFn key)
        ⟨(key, (WrappedRecord.new s (hash_key hashFn key) key r).1) ::
            eraseKey key shard.entries, shard.cap⟩ := by
  simp only [set_record, h]
  split <;> (try split) <;> simp [closeChan_shards, new_shards, Shard.insertEntry]

theorem remove_record_fst (hashFn : String → Nat) (s : SysState) (key : String)
    (shard : Shard) (h : s.shards.get? (hash_key hashFn key) = some shard) :
    (remove_record hashFn s key).1 = Except.ok () := by
  simp only [remove_record, h]
  split <;> (try split) <;> rfl

theorem remove_record_shards (hashFn : String → Nat) (s : SysState) (key : String)
    (shard : Shard) (h : s.shards.get? (hash_key hashFn key) = some shard) :
    (remove_record hashFn s key).2.shards =
      s.shards.set (hash_key hashFn key) ⟨eraseKey key shard.entries, shard.cap⟩ := by
  simp only [remove_record, h]
  split <;> (try split) <;> rfl

theorem update_ttl_policy_shards (wr : WrappedRecord) (nt : Option Nat) (s : SysState)
    (i : Nat) (k : String) (now : Nat) :
    (wr.update_ttl_policy nt s i k now).2.shards = s.shards := by
  unfold WrappedRecord.update_ttl_policy
  split <;> (try split) <;> rfl

theorem update_ttl_policy_some_fst (wr : WrappedRecord) (nt : Nat) (s : SysState)
    (i : Nat) (k : String) (now : Nat) :
    (wr.update_ttl_policy (some nt) s i k now).1 =
      ⟨wr.record.update_ttl_policy nt now, some (create_ttl_check_channel s i k nt).1⟩ := rfl

theorem update_ttl_policy_none_fst (wr : WrappedRecord) (s : SysState)
    (i : Nat) (k : String) (now : Nat) :
    (wr.update_ttl_policy none s i k now).1 =
      ⟨wr.record.remove_ttl_policy, wr.detatched_task_ch⟩ := rfl

theorem update_ttl_fst (hashFn : String → Nat) (s : SysState) (key : String)
    (nt : Option Nat) (now : Nat) (shard : Shard) (wrecord : WrappedRecord)
    (h : s.shards.get? (hash_key hashFn key) = some shard)
    (hl : lookupEntry key shard.entries = some wrecord) :
    (update_ttl hashFn s key nt now).1 = Except.ok () := by
  simp only [update_ttl, h, hl]

theorem update_ttl_shards (hashFn : String → Nat) (s : SysState) (key : String)
    (nt : Option Nat) (now : Nat) (shard : Shard) (wrecord : WrappedRecord)
    (h : s.shards.get? (hash_key hashFn key) = some shard)
    (hl : lookupEntry key shard.entries = some wrecord) :
    (update_ttl hashFn s key nt now).2.shards =
      s.shards.set (hash_key hashFn key)
        ⟨(key, (wrecord.update_ttl_policy nt s (hash_key hashFn key) key now).1) ::
            eraseKey key shard.entries, shard.cap⟩ := by
  simp only [update_ttl, h, hl, update_ttl_policy_shards]

theorem closeEntries_shards (l : List (String × WrappedRecord)) :
    ∀ s : SysState, (closeEntries s l).shards = s.shards := by
  induction l with
  | nil => intro s; rfl
  | cons kv rest ih =>
      intro s
      unfold closeEntries at *
      simp only [List.foldl]
      rw [ih]
      rcases hc : kv.2.detatched_task_ch with _ | c <;> simp [hc, closeChan_shards]

theorem flush_all_shards (s : SysState) :
    (flush_all s).shards = s.shards.map Shard.clear := by
  unfold flush_all
  have haux : ∀ (l : List Shard) (a : SysState),
      (l.foldl (fun acc sh => closeEntries acc sh.entries) a).shards = a.shards := by
    intro l
    induction l with
    | nil => intro a; rfl
    | cons sh rest ih => intro a; rw [List.foldl, ih, closeEntries_shards]
  show (s.shards.foldl (fun acc sh => closeEntries acc sh.entries) s).shards.map Shard.clear
      = s.shards.map Shard.clear
  rw [haux]

/-! ### The claims -/

/-- Claim C1 (code bug, evaluated at the failing input): overwriting a key
whose current record has a non-empty Expirer handle is claimed to place a
`Cancelled` message on that one-shot channel before the write lock is
released.  It does not: starting from the empty store, `SETEX k` (installing
channel 0 for its expirer) followed by `SET k` leaves channel 0 with an empty
message queue — the source drops the unpolled `send` future — and merely
closed because the old sender was dropped. -/
theorem C1_no_cancelled_message_sent :
    ((set_record (fun _ => 0)
        ((set_record (fun _ => 0) initState "k" ⟨[1], some ⟨100, 0⟩⟩).2)
        "k" ⟨[2], none⟩).2).chans
      = [⟨[], false⟩] := by decide

/-- Claim C2 (code bug, evaluated at the failing input): `db_size` is claimed
to return the entry count, 0 after `flush_all`.  The source sums
`HashMap::capacity()`.  At the store state reached after one `SET` (the std
`HashMap` allocates capacity 3 on its first insert, and `clear` keeps the
allocation), `db_size` reports 3 while one entry is stored, and it still
reports 3 after `flush_all` has removed every entry. -/
theorem C2_db_size_is_capacity_not_entries :
    db_size (⟨[⟨[("a", ⟨⟨[97], none⟩, none⟩)], 3⟩, ⟨[], 0⟩, ⟨[], 0⟩, ⟨[], 0⟩], [], []⟩ : SysState) = 3
    ∧ db_size_entries
        (⟨[⟨[("a", ⟨⟨[97], none⟩, none⟩)], 3⟩, ⟨[], 0⟩, ⟨[], 0⟩, ⟨[], 0⟩], [], []⟩ : SysState) = 1
    ∧ db_size (flush_all
        (⟨[⟨[("a", ⟨⟨[97], none⟩, none⟩)], 3⟩, ⟨[], 0⟩, ⟨[], 0⟩, ⟨[], 0⟩], [], []⟩ : SysState)) = 3
    ∧ db_size_entries (flush_all
        (⟨[⟨[("a", ⟨⟨[97], none⟩, none⟩)], 3⟩, ⟨[], 0⟩, ⟨[], 0⟩, ⟨[], 0⟩], [], []⟩ : SysState)) = 0 := by
  decide

/-- Claim C3 (code bug, evaluated at the failing input): the claim (and the
spec's fixed contract) says a policy counts as expired exactly when
elapsed is at least ttl.  The source's `is_expired` uses the strict
comparison `elapsed > ttl`: at ttl of 5 ns with 5 ns elapsed the claim
requires expired, but the code answers false.  The `expire_in` half of the
claim does hold — the sampled values match max(0, ttl - elapsed). -/
theorem C3_expired_boundary_strict :
    TTLPolicy.is_expired ⟨5, 0⟩ 5 = false
    ∧ TTLPolicy.expire_in ⟨5, 0⟩ 5 = 0
    ∧ TTLPolicy.expire_in ⟨5, 0⟩ 3 = 2
    ∧ TTLPolicy.expire_in ⟨5, 0⟩ 9 = 0 := by decide

theorem set_record_state_of_none (hashFn : String → Nat) (s : SysState) (key : String)
    (r : Record) (hg : s.shards.get? (hash_key hashFn key) = none) :
    (set_record hashFn s key r).2 = s := by
  simp only [set_record, hg]

theorem remove_record_state_of_none (hashFn : String → Nat) (s : SysState) (key : String)
    (hg : s.shards.get? (hash_key hashFn key) = none) :
    (remove_record hashFn s key).2 = s := by
  simp only [remove_record, hg]

theorem handleInv_set_shard {s t : SysState} {i : Nat} {sh : Shard}
    {ents : List (String × WrappedRecord)} {c : Nat}
    (hs : HandleInv s) (hg : s.shards.get? i = some sh)
    (ht : t.shards = s.shards.set i ⟨ents, c⟩)
    (hents : ∀ kv ∈ ents, kv ∈ sh.entries ∨
        (kv.2.record.ttl_policy.isSome = true → kv.2.detatched_task_ch.isSome = true)) :
    HandleInv t := by
  intro sh' hmem kv hkv hpol
  rw [ht] at hmem
  rcases List.mem_or_eq_of_mem_set hmem with hold | hnew
  · exact hs sh' hold kv hkv hpol
  · rw [hnew] at hkv
    rcases hents kv hkv with hin | hok
    · exact hs sh (List.get?_mem hg) kv hin hpol
    · exact hok hpol

theorem handleInv_step (hashFn : String → Nat) (s : SysState) (a : Action)
    (hs : HandleInv s) : HandleInv (applyAction hashFn s a) := by
  cases a with
  | set key r =>
      show HandleInv (set_record hashFn s key r).2
      cases hg : s.shards.get? (hash_key hashFn key) with
      | none => rw [set_record_state_of_none hashFn s key r hg]; exact hs
      | some shard =>
          refine handleInv_set_shard hs hg (set_record_shards hashFn s key r shard hg) ?_
          intro kv hkv
          rcases List.mem_cons.mp hkv with hnew | hin
          · right
            intro hpol
            rw [hnew]
            apply new_handle_of_policy
            rw [hnew] at hpol
            rw [← new_record_eq s (hash_key hashFn key) key r]
            exact hpol
          · exact Or.inl (mem_eraseKey hin)
  | remove key =>
      show HandleInv (remove_record hashFn s key).2
      cases hg : s.shards.get? (hash_key hashFn key) with
      | none => rw [remove_record_state_of_none hashFn s key hg]; exact hs
      | some shard =>
          refine handleInv_set_shard hs hg (remove_record_shards hashFn s key shard hg) ?_
          intro kv hkv
          exact Or.inl (mem_eraseKey hkv)
  | updateTtl key nt now =>
      show HandleInv (update_ttl hashFn s key nt now).2
      cases hg : s.shards.get? (hash_key hashFn key) with
      | none =>
          have heq : (update_ttl hashFn s key nt now).2 = s := by simp only [update_ttl, hg]
          rw [heq]; exact hs
      | some shard =>
          cases hl : lookupEntry key shard.entries with
          | none =>
              have heq : (update_ttl hashFn s key nt now).2 = s := by
                simp only [update_ttl, hg, hl]
              rw [heq]; exact hs
          | some wrecord =>
              refine handleInv_set_shard hs hg
                (update_ttl_shards hashFn s key nt now shard wrecord hg hl) ?_
              intro kv hkv
              rcases List.mem_cons.mp hkv with hnew | hin
              · right
                intro hpol
                rw [hnew]
                cases nt with
                | some d => rw [update_ttl_policy_some_fst]; rfl
                | none =>
                    rw [hnew, update_ttl_policy_none_fst] at hpol
                    simp [Record.remove_ttl_policy] at hpol
              · exact Or.inl (mem_eraseKey hin)
  | flushAll =>
      show HandleInv (flush_all s)
      intro sh hmem kv hkv hpol
      rw [flush_all_shards] at hmem
      rcases List.mem_map.mp hmem with ⟨sh0, _, hcl⟩
      rw [← hcl] at hkv
      simp [Shard.clear] at hkv
  | fire shard_index key res =>
      show HandleInv (ttl_check s shard_index key res)
      cases hg : s.shards.get? shard_index with
      | none =>
          have heq : ttl_check s shard_index key res = s := by simp only [ttl_check, hg]
          rw [heq]; exact hs
      | some shard =>
          cases res with
          | Cancelled =>
              have heq : ttl_check s shard_index key TTLResult.Cancelled = s := by
                simp only [ttl_check, hg]
              rw [heq]; exact hs
          | Closed =>
              have heq : ttl_check s shard_index key TTLResult.Closed = s := by
                simp only [ttl_check, hg]
              rw [heq]; exact hs
          | Timout =>
              cases hl : lookupEntry key shard.entries with
              | none =>
                  have heq : ttl_check s shard_index key TTLResult.Timout = s := by
                    simp only [ttl_check, hg, hl]
                  rw [heq]; exact hs
              | some wrecord =>
                  cases hp : wrecord.record.ttl_policy with
                  | none =>
                      have heq : ttl_check s shard_index key TTLResult.Timout = s := by
                        simp only [ttl_check, hg, hl, hp]
                      rw [heq]; exact hs
                  | some p =>
                      have hsh : (ttl_check s shard_index key TTLResult.Timout).shards =
                          s.shards.set shard_index ⟨eraseKey key shard.entries, shard.cap⟩ := by
                        simp only [ttl_check, hg, hl, hp]
                        cases hc : wrecord.detatched_task_ch <;> simp [closeChan_shards]
                      refine handleInv_set_shard hs hg hsh ?_
                      intro kv hkv
                      exact Or.inl (mem_eraseKey hkv)

theorem handleInv_init : HandleInv initState := by
  intro sh hmem kv hkv hpol
  rw [initState] at hmem
  rcases List.mem_replicate.mp hmem with ⟨_, rfl⟩
  simp at hkv

/-- Claim C4, counterexample: after `SETEX k` (handle is channel 0) followed
by `PERSIST k` (`update_ttl` with `None`), the stored record has no ttl
policy but its Expirer handle is still `Some 0` — `update_ttl_policy`'s
`None` branch clears the policy without clearing the handle — so the claimed
"handle non-empty iff policy present" equivalence fails on this reachable
state. -/
theorem C4_persist_keeps_stale_handle :
    lookupEntry "k"
      (((update_ttl (fun _ => 0)
          ((set_record (fun _ => 0) initState "k" ⟨[1], some ⟨5, 0⟩⟩).2)
          "k" none 7).2).shards.getD 0 ⟨[], 0⟩).entries
      = some ⟨⟨[1], none⟩, some 0⟩ := by decide

/-- Claim C6, counterexample: serialization truncates both the ttl and the
elapsed delta to whole seconds, so remaining lifetime is not preserved for
every duration.  A policy with ttl 1.5 s and 0 elapsed has remaining
lifetime 1.5 s at serialization, but the round-tripped policy (reloaded
10 s later) reports only 1 s. -/
theorem C6_subsecond_truncation :
    TTLPolicy.expire_in
        (deserializeTTLPolicy (serializeTTLPolicy ⟨1500000000, 0⟩ 0) 10000000000) 10000000000
      = 1000000000
    ∧ TTLPolicy.expire_in ⟨1500000000, 0⟩ 0 = 1500000000 := by decide

/-- Claim C4, amended: over every sequence of store operations (set, remove,
update_ttl, flush_all, expirer firing) from the empty store, every stored
WrappedRecord whose Record carries a ttl policy has a non-empty Expirer
handle.  (The converse direction of the claimed equivalence fails: see the
counterexample — `update_ttl` with `None` leaves a stale handle on a record
without a policy.) -/
theorem C4_handle_if_policy (hashFn : String → Nat) (acts : List Action) :
    HandleInv (runActions hashFn initState acts) := by
  suffices haux : ∀ (acts : List Action) (s : SysState),
      HandleInv s → HandleInv (runActions hashFn s acts) from
    haux acts initState handleInv_init
  intro acts
  induction acts with
  | nil => intro s hs; exact hs
  | cons a rest ih => intro s hs; exact ih _ (handleInv_step hashFn s a hs)

/-- Claim C4, amended, witness: the invariant holds at a concrete reachable
state (a SETEX followed by a PERSIST). -/
theorem C4_handle_if_policy_witness :
    HandleInv (runActions (fun _ => 0) initState
      [Action.set "k" ⟨[1], some ⟨5, 0⟩⟩, Action.updateTtl "k" none 7]) :=
  C4_handle_if_policy (fun _ => 0) _

/-- Claim C5 (confirmed): when the expirer race is won by the timer, the
`ttl_check` task removes its key from the shard exactly when the key is
still present and its record still carries a ttl policy; when the race
yields `Cancelled` or `Closed`, the task terminates leaving the whole state
(in particular every shard map) unchanged. -/
theorem C5_ttl_check_race (s : SysState) (i : Nat) (key : String) (res : TTLResult)
    (sh : Shard) (h : s.shards.get? i = some sh) :
    ((res = TTLResult.Cancelled ∨ res = TTLResult.Closed) → ttl_check s i key res = s)
    ∧ (res = TTLResult.Timout →
        (ttl_check s i key res).shards =
          if (lookupEntry key sh.entries).any (fun wr => wr.record.ttl_policy.isSome)
          then s.shards.set i ⟨eraseKey key sh.entries, sh.cap⟩
          else s.shards) := by
  constructor
  · rintro (rfl | rfl) <;> simp only [ttl_check, h]
  · rintro rfl
    simp only [ttl_check, h]
    cases hl : lookupEntry key sh.entries with
    | none => simp [hl, Option.any]
    | some wr =>
        cases hp : wr.record.ttl_policy with
        | none => simp [hl, hp, Option.any]
        | some p =>
            cases hc : wr.detatched_task_ch <;>
              simp [hl, hp, hc, Option.any, closeChan_shards]

/-- Claim C5, witness: a cancelled race on the fresh store leaves it
untouched. -/
theorem C5_ttl_check_race_witness :
    ttl_check initState 0 "k" TTLResult.Cancelled = initState :=
  (C5_ttl_check_race initState 0 "k" TTLResult.Cancelled ⟨[], 0⟩ (by decide)).1 (Or.inl rfl)

/-- Claim C6, amended: for ttl durations and elapsed times that are whole
numbers of seconds (`ts` and `es` seconds; serialization truncates both
fields to whole seconds, see the counterexample), the serialize/deserialize
round trip preserves the remaining lifetime exactly and re-grounds
`installed_at` to the load time minus the elapsed delta. -/
theorem C6_roundtrip_whole_seconds (ts es l now2 : Nat) (h : es * NS_PER_SEC ≤ now2) :
    TTLPolicy.expire_in
        (deserializeTTLPolicy
          (serializeTTLPolicy ⟨ts * NS_PER_SEC, l⟩ (l + es * NS_PER_SEC)) now2) now2
      = TTLPolicy.expire_in ⟨ts * NS_PER_SEC, l⟩ (l + es * NS_PER_SEC)
    ∧ (deserializeTTLPolicy
        (serializeTTLPolicy ⟨ts * NS_PER_SEC, l⟩ (l + es * NS_PER_SEC)) now2).last_policy_update
      = now2 - es * NS_PER_SEC := by
  have hNS : 0 < NS_PER_SEC := by decide
  unfold serializeTTLPolicy deserializeTTLPolicy TTLPolicy.expire_in TTLPolicy.is_expired
  simp only [Nat.add_sub_cancel_left, Nat.mul_div_cancel _ hNS]
  rw [Nat.sub_sub_self h]
  exact ⟨rfl, by trivial⟩

/-- Claim C6, amended, witness: a 3 s ttl with 1 s elapsed, reloaded at a
later instant, keeps its 2 s remaining lifetime. -/
theorem C6_roundtrip_whole_seconds_witness :
    1 * NS_PER_SEC ≤ 2000000000
    ∧ (TTLPolicy.expire_in
          (deserializeTTLPolicy
            (serializeTTLPolicy ⟨3 * NS_PER_SEC, 0⟩ (0 + 1 * NS_PER_SEC)) 2000000000) 2000000000
        = TTLPolicy.expire_in ⟨3 * NS_PER_SEC, 0⟩ (0 + 1 * NS_PER_SEC)
      ∧ (deserializeTTLPolicy
          (serializeTTLPolicy ⟨3 * NS_PER_SEC, 0⟩ (0 + 1 * NS_PER_SEC)) 2000000000).last_policy_update
        = 2000000000 - 1 * NS_PER_SEC) :=
  ⟨by decide, C6_roundtrip_whole_seconds 3 1 0 2000000000 (by decide)⟩

/-- Claim C7 (confirmed): `remove_record` returns `Ok` whether or not the key
is present (it never returns `RecordNotFound`); when the key is absent the
whole state is unchanged, and when it is present the entry is removed from
its shard. -/
theorem C7_remove_total (hashFn : String → Nat) (s : SysState) (key : String)
    (sh : Shard) (h : s.shards.get? (hash_key hashFn key) = some sh) :
    (remove_record hashFn s key).1 = Except.ok ()
    ∧ (lookupEntry key sh.entries = none → (remove_record hashFn s key).2 = s)
    ∧ (∀ prev, lookupEntry key sh.entries = some prev →
        (remove_record hashFn s key).2.shards =
          s.shards.set (hash_key hashFn key) ⟨eraseKey key sh.entries, sh.cap⟩) := by
  refine ⟨remove_record_fst _ _ _ _ h, ?_, fun prev hprev => remove_record_shards _ _ _ _ h⟩
  intro hnone
  simp only [remove_record, Shard.removeEntry, h, hnone]
  rw [eraseKey_of_lookup_none hnone]
  have hsh : (⟨sh.entries, sh.cap⟩ : Shard) = sh := rfl
  rw [hsh, list_set_self h]

/-- Claim C7, witness: deleting the absent key "k" from the fresh store
succeeds and leaves the store unchanged. -/
theorem C7_remove_total_witness :
    (remove_record (fun _ => 0) initState "k").1 = Except.ok ()
    ∧ (remove_record (fun _ => 0) initState "k").2 = initState :=
  ⟨(C7_remove_total (fun _ => 0) initState "k" ⟨[], 0⟩ (by decide)).1,
   (C7_remove_total (fun _ => 0) initState "k" ⟨[], 0⟩ (by decide)).2.1 (by decide)⟩

/-- Claim C8 (confirmed): for every key, `hash_key` is strictly below the
shard-array length (a hash modulo the fixed length 4), so on a store with
the fixed four shards `set_record` always returns `Ok`, and none of
`get_record`, `remove_record`, `update_ttl` can return `ShardNotFound`. -/
theorem C8_hash_in_bounds (hashFn : String → Nat) (key : String) :
    hash_key hashFn key < SHARD_LEN
    ∧ (∀ (s : SysState) (r : Record) (nt : Option Nat) (now : Nat),
        s.shards.length = SHARD_LEN →
          ((set_record hashFn s key r).1 = Except.ok ()
          ∧ get_record hashFn s key ≠ Except.error TransactionError.ShardNotFound
          ∧ (remove_record hashFn s key).1 ≠ Except.error TransactionError.ShardNotFound
          ∧ (update_ttl hashFn s key nt now).1 ≠ Except.error TransactionError.ShardNotFound)) := by
  have hb : hash_key hashFn key < SHARD_LEN := Nat.mod_lt _ (by decide)
  refine ⟨hb, ?_⟩
  intro s r nt now hlen
  have hlt : hash_key hashFn key < s.shards.length := by rw [hlen]; exact hb
  obtain ⟨sh, hsh⟩ : ∃ sh, s.shards.get? (hash_key hashFn key) = some sh :=
    ⟨_, List.get?_eq_get hlt⟩
  refine ⟨set_record_fst _ _ _ _ _ hsh, ?_, ?_, ?_⟩
  · simp only [get_record, hsh]
    cases hl : lookupEntry key sh.entries <;> simp
  · rw [remove_record_fst _ _ _ _ hsh]; simp
  · simp only [update_ttl, hsh]
    cases hl : lookupEntry key sh.entries <;> simp

/-- Claim C8, witness: on the fresh store, `hash_key` of "a" is in bounds
and `set_record` succeeds. -/
theorem C8_hash_in_bounds_witness :
    hash_key (fun _ => 0) "a" < SHARD_LEN
    ∧ (set_record (fun _ => 0) initState "a" ⟨[], none⟩).1 = Except.ok () :=
  ⟨(C8_hash_in_bounds (fun _ => 0) "a").1,
   ((C8_hash_in_bounds (fun _ => 0) "a").2 initState ⟨[], none⟩ none 0 (by decide)).1⟩

/-- Claim C9 (confirmed): a recovered shard file replaces the live shard at
index i exactly when the last underscore-separated component of its stem
parses as an integer i strictly below the shard count; any other stem
leaves the store untouched (in particular no out-of-bounds write: the
`unwrap_or(usize::MAX)` default always fails the bounds guard). -/
theorem C9_recover_stem_guard (s : SysState) (stem : String) (sh : Shard)
    (hlen : s.shards.length = SHARD_LEN) :
    (∀ i, parseShardNumOpt stem = some i → i < SHARD_LEN →
        recoverStep s stem sh = { s with shards := s.shards.set i sh })
    ∧ (¬ (∃ i, parseShardNumOpt stem = some i ∧ i < SHARD_LEN) →
        recoverStep s stem sh = s) := by
  constructor
  · intro i hp hi
    simp only [recoverStep, parseShardNum, hp, hlen]
    rw [if_pos hi]
  · intro hno
    cases hp : parseShardNumOpt stem with
    | some i =>
        have hge : ¬ i < SHARD_LEN := fun hi => hno ⟨i, hp, hi⟩
        simp only [recoverStep, parseShardNum, hp, hlen]
        rw [if_neg hge]
    | none =>
        have hge : ¬ USIZE_MAX < SHARD_LEN := by decide
        simp only [recoverStep, parseShardNum, hp, hlen]
        rw [if_neg hge]

/-- Claim C9, witness: the stem "shard_2" parses to index 2 and replaces
shard 2 of the fresh store. -/
theorem C9_recover_stem_guard_witness :
    recoverStep initState "shard_2" ⟨[], 5⟩
      = { initState with shards := initState.shards.set 2 ⟨[], 5⟩ } :=
  (C9_recover_stem_guard initState "shard_2" ⟨[], 5⟩ (by decide)).1 2 (by decide) (by decide)

/-- Claim C10 (confirmed): every WrappedRecord produced by deserialization
carries `detatched_task_ch = None` even when its record has a ttl policy;
a recovery step spawns no expirer task and allocates no channel;
`get_record` returns any present record without consulting its ttl policy
(the function does not inspect the clock at all); and from any state with
no expirer tasks — such as the fresh store after recovery — no sequence of
expirer steps changes the state, so a recovered record is never removed by
ttl expiration and stays retrievable indefinitely. -/
theorem C10_recovered_records_inert :
    (∀ record : Record, (deserializeWrappedRecord record).detatched_task_ch = none)
    ∧ (∀ (s : SysState) (stem : String) (sh : Shard),
        (recoverStep s stem sh).tasks = s.tasks ∧ (recoverStep s stem sh).chans = s.chans)
    ∧ (∀ (hashFn : String → Nat) (s : SysState) (key : String) (shard : Shard)
        (wr : WrappedRecord),
        s.shards.get? (hash_key hashFn key) = some shard →
        lookupEntry key shard.entries = some wr →
        get_record hashFn s key = Except.ok wr.record)
    ∧ (∀ s sf : SysState, s.tasks = [] → Relation.ReflTransGen ExpStep s sf → sf = s) := by
  refine ⟨fun record => rfl, ?_, ?_, ?_⟩
  · intro s stem sh
    simp only [recoverStep]
    split <;> exact ⟨rfl, rfl⟩
  · intro hashFn s key shard wr hg hl
    simp only [get_record, hg, hl]
  · intro s sf hempty hst
    rcases Relation.ReflTransGen.cases_head hst with heq | ⟨c, hstep, _⟩
    · exact heq.symm
    · rcases hstep with ⟨t, hmem, _⟩
      rw [hempty] at hmem
      simp at hmem

/-- Claim C10, witness: recovering the shard file "shard_0" containing key
"k" with a live ttl policy yields a handleless record that `get_record`
still returns, and the recovered store admits no expirer step. -/
theorem C10_recovered_records_inert_witness :
    (deserializeWrappedRecord ⟨[7], some ⟨5, 0⟩⟩).detatched_task_ch = none
    ∧ get_record (fun _ => 0)
        (recoverStep initState "shard_0" (deserializeShard [("k", ⟨[7], some ⟨5, 0⟩⟩)] 1)) "k"
        = Except.ok ⟨[7], some ⟨5, 0⟩⟩
    ∧ recoverStep initState "shard_0" (deserializeShard [("k", ⟨[7], some ⟨5, 0⟩⟩)] 1)
        = recoverStep initState "shard_0" (deserializeShard [("k", ⟨[7], some ⟨5, 0⟩⟩)] 1) :=
  ⟨C10_recovered_records_inert.1 ⟨[7], some ⟨5, 0⟩⟩,
   C10_recovered_records_inert.2.2.1 (fun _ => 0)
     (recoverStep initState "shard_0" (deserializeShard [("k", ⟨[7], some ⟨5, 0⟩⟩)] 1)) "k"
     (deserializeShard [("k", ⟨[7], some ⟨5, 0⟩⟩)] 1)
     ⟨⟨[7], some ⟨5, 0⟩⟩, none⟩ (by decide) (by decide),
   C10_recovered_records_inert.2.2.2
     (recoverStep initState "shard_0" (deserializeShard [("k", ⟨[7], some ⟨5, 0⟩⟩)] 1))
     (recoverStep initState "shard_0" (deserializeShard [("k", ⟨[7], some ⟨5, 0⟩⟩)] 1))
     (by decide) Relation.ReflTransGen.refl⟩

end Mapper
